import Mathlib

/-!
Verification development for the Netopeer2 NETCONF server read path
(src/server/operations.c, src/server/op_get_config.c).

The C sources are shallowly embedded: pure decision procedures become Lean
functions, the libyang/sysrepo collaborators (schema lookup, XML parsing,
datastore iteration, tree allocation) appear as explicit parameters or as
modelled data, and machine strings become Lean `String`s.  Memory
allocation never fails in the pure model, so the C `EMEM` paths that are
pure out-of-memory handling disappear; a C failure that can trigger on
ordinary data (e.g. a NULL string value) is kept as an `Except` error.
-/

set_option autoImplicit false
set_option linter.unusedVariables false

namespace Netopeer2

/-! ### Basic C string helpers -/

/-- C `isspace` in the default locale: space, \t, \n, \v, \f, \r. -/
def cIsSpace (c : Char) : Bool :=
  c == ' ' || c == '\t' || c == '\n' || c == Char.ofNat 11 || c == Char.ofNat 12 || c == '\r'

/-- `strws` (op_get_config.c:189-200): true iff every character of the string
is whitespace (also true for the empty string). -/
def strws (s : String) : Bool :=
  s.toList.all cIsSpace

/-- The leading/trailing-whitespace stripping used on every content match
(op_get_config.c:262-264 and 331-333). -/
def trimWs (s : String) : String :=
  ⟨((s.toList.dropWhile cIsSpace).reverse.dropWhile cIsSpace).reverse⟩

/-- Left-pad a digit string with zeros up to width `n`. -/
def padZeros (s : String) (n : Nat) : String :=
  if n ≤ s.length then s else ⟨List.replicate (n - s.length) '0'⟩ ++ s

/-- Model of `sprintf("%.*f", dig, q)`: fixed-point rendering of a rational
with `dig` fractional digits (the C prints a `double`; the binary
floating-point value is modelled by the rational it holds). -/
def formatFixed (q : Rat) (dig : Nat) : String :=
  let scaled : Int := round (q * ((10 : Rat) ^ dig))
  let sign := if scaled < 0 then "-" else ""
  let a := scaled.natAbs
  if dig = 0 then sign ++ toString a
  else sign ++ toString (a / 10 ^ dig) ++ "." ++ padZeros (toString (a % 10 ^ dig)) dig

/-! ### Value codec (operations.c)

The sysrepo value is a tagged union `sr_val_t` with an `xpath`, a `dflt`
flag, a `type` discriminator and per-type data fields.  The union data is
embedded as one field per C union member that the read path touches. -/

/-- The sysrepo `sr_type_t` discriminators used by the read path. -/
inductive SrType where
  | container | containerPresence | list | leafEmpty
  | bool | decimal64
  | int8 | int16 | int32 | int64
  | uint8 | uint16 | uint32 | uint64
  | string | binary | bits | enum | identityref | instanceid
  | unknown
  deriving DecidableEq

/-- An incoming `sr_val_t` as consumed by `op_get_srval` and
`op_dflt_data_inspect`.  `strVal` models the union's `string_val` family of
`char *` members (`none` = NULL pointer), `decVal` the `decimal64_val`
double, `intVal`/`natVal` the signed/unsigned integer members. -/
structure SrVal where
  xpath : Option String
  dflt : Bool
  type : SrType
  strVal : Option String := Option.none
  boolVal : Bool := false
  decVal : Rat := 0
  intVal : Int := 0
  natVal : Nat := 0
  deriving DecidableEq

/-- `op_get_srval` (operations.c:23-80): canonical string of a sysrepo
value, or `none` (NULL) when there is none.  The `ly_ctx_get_node` schema
lookup that the decimal64 arm performs is a libyang collaborator and is
passed in as `digLookup` (the fraction-digits of the leaf at
`value.xpath`, `none` when the lookup fails). -/
def op_get_srval (digLookup : Option Nat) (value : SrVal) : Option String :=
  match value.type with
  | .string | .binary | .bits | .enum | .identityref | .instanceid => value.strVal
  | .leafEmpty => none
  | .bool => some (if value.boolVal then "true" else "false")
  | .decimal64 =>
    match digLookup with
    | none => none
    | some dig => some (formatFixed value.decVal dig)
  | .uint8 | .uint16 | .uint32 | .uint64 => some (toString value.natVal)
  | .int8 | .int16 | .int32 | .int64 => some (toString value.intVal)
  | _ => none

/-- The `lys_node` nodetypes distinguished by the embedded code. -/
inductive LysNodetype where
  | container (presence : Bool)
  | list
  | leaf
  | leaflist
  | anyxml
  | other
  deriving DecidableEq

/-- The typed value stored in a `lyd_node_leaf_list`, one constructor per
`LY_TYPE_` base read by `op_set_srval` (the constructor plays the role of
`((struct lys_node_leaf *)node->schema)->type.base`, which selects the
union member the C reads).  `Option String` members model possibly-NULL
`char *` data.  For `ident`, `sameMod` is the comparison
`leaf->value.ident->module == leaf->schema->module` and `mainModName` is
`lys_main_module(...)->name`. -/
inductive LeafContent where
  | binary (s : Option String)
  | bits (names : List (Option String))
  | bln (b : Bool)
  | dec64 (v : Int) (dig : Nat)
  | empty
  | enum (name : Option String)
  | ident (sameMod : Bool) (mainModName : String) (name : Option String)
  | inst
  | string (s : Option String)
  | int8 (v : Int) | uint8 (v : Nat)
  | int16 (v : Int) | uint16 (v : Nat)
  | int32 (v : Int) | uint32 (v : Nat)
  | int64 (v : Int) | uint64 (v : Nat)
  | leafref | union | derived
  deriving DecidableEq

/-- A data node as consumed by `op_set_srval`: its schema nodetype and (for
leaves) its typed value. -/
structure LydNode where
  nodetype : LysNodetype
  content : LeafContent
  deriving DecidableEq

/-- The data carried inside an outgoing `sr_val_t` produced by
`op_set_srval`.  `dec v dig` stands for the double `v * 10 ^ (-dig)`
computed by the repeated `*= 0.1` loop. -/
inductive SrData where
  | str (s : String)
  | boolean (b : Bool)
  | dec (mant : Int) (dig : Nat)
  | int (v : Int)
  | nat (v : Nat)
  deriving DecidableEq

/-- An outgoing `sr_val_t` as produced by `op_set_srval`. -/
structure SrValOut where
  xpath : Option String
  dflt : Bool
  type : SrType
  data : SrData
  deriving DecidableEq

/-- `copy_bits` (operations.c:82-118): space-separated concatenation of the
non-NULL bit names (the C drops NULL array slots and strips the final
space). -/
def copy_bits (names : List (Option String)) : String :=
  String.intercalate " " (names.filterMap id)

/-- `op_set_srval` (operations.c:120-266): convert a data-tree node into a
sysrepo value.  The C returns -1 (here `.error ()`) when a string member it
must carry is NULL; allocation failures do not exist in the pure model.
`dup` only affects ownership of the carried strings in C (fresh copy
vs. borrowed pointer), which is value-irrelevant here; the parameter is
kept to mirror the signature.  `val->xpath` is set to (a copy of) `path`
and `val->dflt` to 0 before the type dispatch. -/
def op_set_srval (node : LydNode) (path : Option String) (dup : Bool) : Except Unit SrValOut :=
  let base : SrValOut := { xpath := path, dflt := false, type := .unknown, data := .int 0 }
  match node.nodetype with
  | .container p => .ok { base with type := if p then .containerPresence else .container }
  | .list => .ok { base with type := .list }
  | .leaf | .leaflist =>
    match node.content with
    | .binary s =>
      match s with
      | none => .error ()
      | some s => .ok { base with type := .binary, data := .str s }
    | .bits names => .ok { base with type := .bits, data := .str (copy_bits names) }
    | .bln b => .ok { base with type := .bool, data := .boolean b }
    | .dec64 v dig => .ok { base with type := .decimal64, data := .dec v dig }
    | .empty => .ok { base with type := .leafEmpty }
    | .enum n =>
      match n with
      | none => .error ()
      | some n => .ok { base with type := .enum, data := .str n }
    | .ident sameMod mainModName n =>
      if sameMod then
        match n with
        | none => .error ()
        | some n => .ok { base with type := .identityref, data := .str n }
      else
        .ok { base with type := .identityref,
                        data := .str (mainModName ++ ":" ++ n.getD "") }
    | .inst => .ok { base with type := .instanceid }
    | .string s =>
      match s with
      | none => .error ()
      | some s => .ok { base with type := .string, data := .str s }
    | .int8 v => .ok { base with type := .int8, data := .int v }
    | .uint8 v => .ok { base with type := .uint8, data := .nat v }
    | .int16 v => .ok { base with type := .int16, data := .int v }
    | .uint16 v => .ok { base with type := .uint16, data := .nat v }
    | .int32 v => .ok { base with type := .int32, data := .int v }
    | .uint32 v => .ok { base with type := .uint32, data := .nat v }
    | .int64 v => .ok { base with type := .int64, data := .int v }
    | .uint64 v => .ok { base with type := .uint64, data := .nat v }
    | .leafref | .union | .derived => .ok base
  | _ => .ok base

/-! ### Defaults inspection (operations.c:268-359) -/

/-- The libnetconf2 with-defaults modes. -/
inductive NcWd where
  | all | allTag | trim | explicit
  deriving DecidableEq

/-- The slice of a `lys_node_leaf` schema node that
`op_dflt_data_inspect` reads: nodetype, the `LYS_CONFIG_W` flag, the
leaf's own declared default, the `dflt` members of the typedef derivation
chain (`type.der`, `type.der->type.der`, ...), and the decimal64
fraction-digits used by the nested `op_get_srval` call. -/
structure SLeaf where
  nodetype : LysNodetype
  configW : Bool
  dflt : Option String
  tpdfChain : List (Option String)
  dec64dig : Nat
  deriving DecidableEq

/-- The typedef-chain walk of operations.c:329-337: the first declared
default walking the derivation chain upward. -/
def firstTpdfDflt : List (Option String) → Option String
  | [] => none
  | some d :: _ => some d
  | none :: rest => firstTpdfDflt rest

/-- The effective schema default of a leaf: its own declared default, else
the first typedef default (operations.c:325-337). -/
def effectiveDflt (sleaf : SLeaf) : Option String :=
  match sleaf.dflt with
  | some d => some d
  | none => firstTpdfDflt sleaf.tpdfChain

/-- The guarded comparison `dflt_val && !strcmp(dflt_val, val)`
(operations.c:344, 349).  The C would dereference a NULL `val`; any value
type for which a default can be declared yields a non-NULL string, so the
model lets the comparison fail instead. -/
def dfltMatches (dfltVal val : Option String) : Bool :=
  match dfltVal, val with
  | some d, some v => d == v
  | _, _ => false

/-- `op_dflt_data_inspect` (operations.c:268-359): the per-value
with-defaults decision; -1 = discard, 0 = keep, 1 = keep and tag.  The
`ly_ctx_get_node2` schema lookup is a libyang collaborator and is passed
in as `lookup` (`none` = lookup failed, which the C treats as an internal
error and discards). -/
def op_dflt_data_inspect (lookup : Option SLeaf) (value : SrVal) (wd : NcWd)
    (rpcOutput : Bool) : Int :=
  if wd = .all then 0
  else if wd = .explicit ∧ value.dflt = false then 0
  else
    match lookup with
    | none => -1
    | some sleaf =>
      if sleaf.nodetype ≠ .leaf then 0
      else if wd = .explicit then
        if sleaf.configW ∧ rpcOutput = false then -1 else 0
      else if value.dflt then
        match wd with
        | .trim => -1
        | .allTag => 1
        | _ => -1
      else
        let dv := effectiveDflt sleaf
        let v := op_get_srval (some sleaf.dec64dig) value
        match wd with
        | .trim => if dfltMatches dv v then -1 else 0
        | .allTag => if dfltMatches dv v then 1 else 0
        | _ => -1

/-- Abbreviation for the spec-side reading "the value equals its effective
schema default" as the code computes it. -/
def valEqDflt (sleaf : SLeaf) (value : SrVal) : Bool :=
  dfltMatches (effectiveDflt sleaf) (op_get_srval (some sleaf.dec64dig) value)

/-! ### Schema context (modelled libyang `ly_ctx`) -/

/-- The nodetypes of top-level schema nodes that the no-filter branch and
the legacy module search distinguish. -/
inductive LysSchemaType where
  | container | leaf | leaflist | list | choice | anyxml | uses
  | grouping | rpc | notif
  deriving DecidableEq

/-- A top-level schema node of a module (`module->data` entry). -/
structure SNodeTop where
  name : String
  nt : LysSchemaType
  deriving DecidableEq

/-- A loaded module: name, namespace URI, top-level schema nodes. -/
structure LyModule where
  name : String
  ns : String
  data : List SNodeTop
  deriving DecidableEq

/-- The process-wide schema context `np2srv.ly_ctx`. -/
structure LyCtx where
  modules : List LyModule
  deriving DecidableEq

/-- `ly_ctx_get_module_by_ns` (collaborator): module by namespace URI. -/
def ly_ctx_get_module_by_ns (ctx : LyCtx) (ns : String) : Option LyModule :=
  ctx.modules.find? (fun m => m.ns == ns)

/-! ### Filter compiler (op_get_config.c:202-567)

XML elements follow libyang's `lyxml_elem`: local name, resolved
namespace value, standard attributes, text content (NULL or a string) and
child elements.  A parsed element's `ns` is the in-scope namespace of the
element, as lyxml resolves default namespaces. -/

/-- A standard XML attribute (`LYXML_ATTR_STD`); `std = false` models the
namespace-definition attributes that `opget_xpath_buf_add_attrs` skips. -/
structure XmlAttr where
  std : Bool
  ns : Option String
  name : String
  value : String
  deriving DecidableEq

/-- A `lyxml_elem`. -/
inductive XmlElem where
  | mk (name : String) (ns : Option String) (attrs : List XmlAttr)
       (content : Option String) (children : List XmlElem)

def XmlElem.name : XmlElem → String
  | .mk n _ _ _ _ => n

def XmlElem.ns : XmlElem → Option String
  | .mk _ ns _ _ _ => ns

def XmlElem.attrs : XmlElem → List XmlAttr
  | .mk _ _ a _ _ => a

def XmlElem.content : XmlElem → Option String
  | .mk _ _ _ c _ => c

def XmlElem.children : XmlElem → List XmlElem
  | .mk _ _ _ _ cs => cs

/-- The NETCONF base namespace skipped by every namespace comparison. -/
def nsBase : String := "urn:ietf:params:xml:ns:netconf:base:1.0"

/-- RFC 6241 content-match classification as the code tests it
(op_get_config.c:405): no children, non-NULL content, not all
whitespace. -/
def isContentMatch (e : XmlElem) : Bool :=
  e.children.isEmpty &&
    (match e.content with
     | some c => !strws c
     | none => false)

/-- The namespace/prefix resolution shared by `opget_xpath_buf_add_node`
and `opget_xpath_buf_add_content` (op_get_config.c:301-311 and 356-366):
when no module name was handed down and the element's namespace differs
from the last emitted one (libyang interns strings, so the C pointer
comparison `elem->ns->value != *last_ns` is string comparison) and is not
the NETCONF base namespace, resolve it to a module; an unknown namespace
is the silent skip (`return 0`), modelled as `none`.  Returns the module
name to print (if any) and the updated `last_ns`. -/
def resolveNsMod (ctx : LyCtx) (elemNs : Option String) (elemModName : Option String)
    (lastNs : String) : Option (Option String × String) :=
  match elemModName with
  | some m => some (some m, lastNs)
  | none =>
    match elemNs with
    | some ns =>
      if ns ≠ lastNs ∧ ns ≠ nsBase then
        match ly_ctx_get_module_by_ns ctx ns with
        | none => none
        | some m => some (some m.name, ns)
      else some (none, lastNs)
    | none => some (none, lastNs)

/-- Render the optional module prefix. -/
def modPfx : Option String → String
  | some m => m ++ ":"
  | none => ""

/-- `opget_xpath_buf_add_attrs` (op_get_config.c:219-251): append an
`[@module:attr='value']` predicate per standard attribute with a
resolvable namespace; attributes without namespace or with an unknown one
are silently skipped. -/
def opget_xpath_buf_add_attrs (ctx : LyCtx) (attrs : List XmlAttr) (buf : String) : String :=
  attrs.foldl
    (fun b a =>
      if a.std then
        match a.ns with
        | some ns =>
          match ly_ctx_get_module_by_ns ctx ns with
          | some m => b ++ "[@" ++ m.name ++ ":" ++ a.name ++ "='" ++ a.value ++ "']"
          | none => b
        | none => b
      else b)
    buf

/-- `opget_xpath_buf_add_node` (op_get_config.c:348-382): append
`/module:localName` (prefix omitted when the namespace equals the last
emitted one) plus attribute predicates.  `none` models the size-0 skip for
an unknown namespace. -/
def opget_xpath_buf_add_node (ctx : LyCtx) (elem : XmlElem) (elemModName : Option String)
    (lastNs : String) (buf : String) : Option (String × String) :=
  match resolveNsMod ctx elem.ns elemModName lastNs with
  | none => none
  | some (pm, ns') =>
    some (opget_xpath_buf_add_attrs ctx elem.attrs (buf ++ "/" ++ modPfx pm ++ elem.name), ns')

/-- `opget_xpath_buf_add_content` (op_get_config.c:292-345): append
`[module:localName` plus attribute predicates plus `='trimmed-text']`. -/
def opget_xpath_buf_add_content (ctx : LyCtx) (elem : XmlElem) (elemModName : Option String)
    (lastNs : String) (buf : String) : Option (String × String) :=
  match resolveNsMod ctx elem.ns elemModName lastNs with
  | none => none
  | some (pm, ns') =>
    some (opget_xpath_buf_add_attrs ctx elem.attrs (buf ++ "[" ++ modPfx pm ++ elem.name)
            ++ "='" ++ trimWs (elem.content.getD "") ++ "']", ns')

/-- The content-match pass of `opget_xpath_buf_add`
(op_get_config.c:404-440): for each content-match child, absorb it into
the accumulator as a predicate, emit a selection-form XPath ending at that
child, and remove the child (removal shows up as the child simply being
consumed here and filtered out before the branching pass).  Returns the
selection filters emitted in order, plus the final accumulator and
`last_ns` — or `none` in the second slot when a namespace skip made the
whole `opget_xpath_buf_add` call return early (the C frees the buffer and
returns 0, keeping the filters collected so far). -/
def contentLoop (ctx : LyCtx) (elemModName : Option String) :
    List XmlElem → String → String → List String × Option (String × String)
  | [], buf, ns => ([], some (buf, ns))
  | c :: rest, buf, ns =>
    if isContentMatch c then
      match opget_xpath_buf_add_content ctx c elemModName ns buf with
      | none => ([], none)
      | some (buf1, ns1) =>
        match opget_xpath_buf_add_node ctx c elemModName ns1 buf1 with
        | none => ([], none)
        | some (sel, ns2) =>
          let r := contentLoop ctx elemModName rest buf1 ns2
          (sel :: r.1, r.2)
    else
      contentLoop ctx elemModName rest buf ns

theorem sizeOf_filter_le {α : Type} [SizeOf α] (p : α → Bool) (l : List α) :
    sizeOf (l.filter p) ≤ sizeOf l := by
  induction l with
  | nil => simp
  | cons a as ih =>
    simp only [List.filter_cons]
    split
    · simp only [List.cons.sizeOf_spec]
      omega
    · simp only [List.cons.sizeOf_spec]
      omega

theorem sizeOf_children_lt (e : XmlElem) : sizeOf e.children < sizeOf e := by
  cases e with
  | mk n ns a c cs => simp [XmlElem.children]

mutual

/-- `opget_xpath_buf_add` (op_get_config.c:385-492): compile one
containment/selection element into XPaths.  Appends the node itself,
absorbs content-match children as predicates (emitting each also as a
selection XPath), then either finishes the accumulator (no children left)
or branches over the remaining children. -/
def opget_xpath_buf_add (ctx : LyCtx) (elem : XmlElem) (elemModName : Option String)
    (lastNs : String) (buf : String) : List String :=
  match opget_xpath_buf_add_node ctx elem elemModName lastNs buf with
  | none => []
  | some (buf1, ns1) =>
    match contentLoop ctx elemModName elem.children buf1 ns1 with
    | (sel, none) => sel
    | (sel, some (buf2, ns2)) =>
      let rem := elem.children.filter (fun c => !isContentMatch c)
      if rem.isEmpty then sel ++ [buf2]
      else sel ++ branchLoop ctx rem ns2 buf2
termination_by sizeOf elem
decreasing_by
  exact Nat.lt_of_le_of_lt (sizeOf_filter_le _ _) (sizeOf_children_lt elem)

/-- The branching pass of `opget_xpath_buf_add` (op_get_config.c:452-485):
recurse into containment children, finish selection children, skipping a
selection child whose namespace is unknown.  A selection child updates
`last_ns` (passed by reference in C) for its following siblings; a
containment child receives it by value. -/
def branchLoop (ctx : LyCtx) (children : List XmlElem) (lastNs : String) (buf : String) :
    List String :=
  match children with
  | [] => []
  | c :: rest =>
    if c.children.isEmpty then
      match opget_xpath_buf_add_node ctx c none lastNs buf with
      | none => branchLoop ctx rest lastNs buf
      | some (sel, ns') => sel :: branchLoop ctx rest ns' buf
    else
      opget_xpath_buf_add ctx c none lastNs buf ++ branchLoop ctx rest lastNs buf
termination_by sizeOf children
decreasing_by
  all_goals simp only [List.cons.sizeOf_spec]
  all_goals omega

end

/-- `opget_xpath_buf_add_top_content` (op_get_config.c:254-289): the
special case of a top-level content-match element,
`/module:root[text()='trimmed']` plus attribute predicates. -/
def opget_xpath_buf_add_top_content (ctx : LyCtx) (elem : XmlElem) (modName : String) :
    String :=
  opget_xpath_buf_add_attrs ctx elem.attrs
    ("/" ++ modName ++ ":" ++ elem.name ++ "[text()='" ++ trimWs (elem.content.getD "") ++ "']")

/-- Models the legacy no-namespace branch (op_get_config.c:521-539): the
`ly_ctx_get_module_iter` × `lys_getnext` collaborator walk, matching a
module that has a top-level schema node (groupings are not returned by
`lys_getnext`) with the element's local name. -/
def moduleMatchesTopName (m : LyModule) (nm : String) : Bool :=
  m.data.any (fun s => s.nt ≠ .grouping && s.name == nm)

/-- `opget_build_xpath_from_subtree_filter` (op_get_config.c:494-567):
compile the filter forest.  Each root with a non-base namespace resolves
to exactly one module (unknown → silently skipped); a root without one (or
with the base namespace) fans out over every module with a matching
top-level node name. -/
def opget_build_xpath_from_subtree_filter (ctx : LyCtx) (forest : List XmlElem) :
    List String :=
  forest.flatMap
    (fun next =>
      let mods : List LyModule :=
        match next.ns with
        | some ns =>
          if ns ≠ nsBase then
            match ly_ctx_get_module_by_ns ctx ns with
            | some m => [m]
            | none => []
          else ctx.modules.filter (fun m => moduleMatchesTopName m next.name)
        | none => ctx.modules.filter (fun m => moduleMatchesTopName m next.name)
      mods.flatMap
        (fun m =>
          if isContentMatch next then [opget_xpath_buf_add_top_content ctx next m.name]
          else opget_xpath_buf_add ctx next (some m.name) m.ns ""))

/-! ### Subtree builder (op_get_config.c:34-108) -/

/-- The sysrepo error classes distinguished by the builder. -/
inductive SrErr where
  | unknownModel
  | notFound
  | other (code : Nat)
  deriving DecidableEq

/-- `opget_build_subtree_from_sysrepo` (op_get_config.c:34-108).  The
iterator request is `getItemsIter (xpath ++ "//.")`; `SR_ERR_UNKNOWN_MODEL`
and `SR_ERR_NOT_FOUND` are benign (success, `root` untouched), any other
sysrepo error is fatal.  The per-value loop body (libyang `lyd_new_path`
insertion plus the default-flag propagation walks) is the collaborator
`processItems`; the tree type `τ` is abstract. -/
def opget_build_subtree_from_sysrepo {τ : Type}
    (getItemsIter : String → Except SrErr (List SrVal))
    (processItems : List SrVal → Option τ → Except Unit (Option τ))
    (root : Option τ) (xpath : String) : Except Unit (Option τ) :=
  match getItemsIter (xpath ++ "//.") with
  | .error .unknownModel => .ok root
  | .error .notFound => .ok root
  | .error (.other _) => .error ()
  | .ok items => processItems items root

/-! ### Default-flag propagation (op_get_config.c:75-102)

The two walks operate along parent/first-child links of the node returned
by `lyd_new_path`.  A position is modelled as the ancestor chain above the
node (parent first) plus the node-and-first-child chain below it
(node first). -/

/-- The schema shape a propagation step inspects. -/
inductive PSchema where
  | containerP (presence : Bool)
  | listP (keysSize : Nat)
  | leafP
  | leaflistP
  | anyxmlP
  deriving DecidableEq

/-- A data node as seen by the propagation walks: schema shape plus the
`dflt` flag. -/
structure PNode where
  sc : PSchema
  dflt : Bool
  deriving DecidableEq

/-- `LYS_LEAF | LYS_LEAFLIST | LYS_ANYXML` (the descent stop test,
op_get_config.c:80). -/
def isLeafLike : PSchema → Bool
  | .leafP => true
  | .leaflistP => true
  | .anyxmlP => true
  | _ => false

/-- The upward-walk stop test (op_get_config.c:84-90): presence container
or list with keys. -/
def isBlocker : PSchema → Bool
  | .containerP p => p
  | .listP k => k ≠ 0
  | _ => false

/-- The descent loop (op_get_config.c:79-81): follow first-child links
while the node is neither leaf-like nor childless; returns the visited
path, node first. -/
def descendPath : List PNode → List PNode
  | [] => []
  | [n] => [n]
  | n :: m :: rest => if isLeafLike n.sc then [n] else n :: descendPath (m :: rest)

/-- The upward marking loop (op_get_config.c:83-96) applied to the visited
path listed deepest first: set `dflt` on each node until (and excluding) a
presence container or keyed list, which stops the walk. -/
def markUp : List PNode → List PNode
  | [] => []
  | x :: xs => if isBlocker x.sc then x :: xs else ⟨x.sc, true⟩ :: markUp xs

/-- The upward clearing loop (op_get_config.c:98-100) applied to the
ancestors listed parent first: clear `dflt` while it is set, stop at the
first non-default ancestor. -/
def clearUp : List PNode → List PNode
  | [] => []
  | a :: rest => if a.dflt then ⟨a.sc, false⟩ :: clearUp rest else a :: rest

/-- The whole `value->dflt == true` branch: descend, then mark upward back
to the node; nodes below the descent stop are untouched.  `l` is the node
followed by its first-child chain. -/
def propagateTrue (l : List PNode) : List PNode :=
  let p := descendPath l
  (markUp p.reverse).reverse ++ l.drop p.length

/-- The default-flag propagation for one yielded value
(op_get_config.c:75-102): `ancestors` is the chain above the inserted
node (parent first), `nodeChain` the inserted node followed by its
first-child chain. -/
def propagateDflt (valueDflt : Bool) (ancestors nodeChain : List PNode) :
    List PNode × List PNode :=
  if valueDflt then (ancestors, propagateTrue nodeChain)
  else (clearUp ancestors, nodeChain)

/-! ### Local tree projector (op_get_config.c:110-187) -/

/-- The schema facts the projector uses about a data node: identity
(schema-node pointer), position in the schema's declared order (used by
`lyd_schema_sort`), whether it is a list, and the list's key schema
identities in declared order. -/
structure DSchema where
  id : Nat
  rank : Nat
  isList : Bool
  keys : List Nat
  deriving DecidableEq

/-- A libyang data node as the projector sees it. -/
inductive DataNode where
  | node (info : DSchema) (children : List DataNode)

def DataNode.info : DataNode → DSchema
  | .node i _ => i

def DataNode.children : DataNode → List DataNode
  | .node _ cs => cs

/-- `lyd_dup(node, 0)`: shallow duplicate (no children). -/
def shallowDup (n : DataNode) : DataNode :=
  .node n.info []

/-- The schema-order relation used by `lyd_schema_sort`. -/
def rankLe (a b : DataNode) : Prop :=
  a.info.rank ≤ b.info.rank

instance : DecidableRel rankLe := fun a b => Nat.decLe _ _

instance : IsTotal DataNode rankLe := ⟨fun a b => Nat.le_total _ _⟩

instance : IsTrans DataNode rankLe := ⟨fun _ _ _ => Nat.le_trans⟩

/-- `lyd_schema_sort` (collaborator): reorder siblings into schema order. -/
def sortChildren (l : List DataNode) : List DataNode :=
  l.insertionSort rankLe

/-- The key-completion loop (op_get_config.c:140-171): for each schema key
`keys[j]`, the C walks the original list's first `keys_size` children in
parallel (asserting `slist->keys[j] == key->schema`), checks whether a
child with that schema already sits under the duplicated list, and
otherwise appends a shallow duplicate of the original key. -/
def addMissingKeys (origPairs : List (Nat × DataNode)) (cur : List DataNode) :
    List DataNode :=
  origPairs.foldl
    (fun cs kp =>
      if cs.any (fun c => c.info.id == kp.1) then cs
      else cs ++ [shallowDup kp.2])
    cur

/-- One ancestor step of `opget_build_tree_from_data`
(op_get_config.c:126-173): shallow-duplicate the ancestor, wrap the
fragment built so far, and for a list ancestor complete the keys and
re-sort the children into schema order. -/
def projectStep (a : DataNode) (frag : DataNode) : DataNode :=
  if a.info.isList then
    .node a.info
      (sortChildren (addMissingKeys (a.info.keys.zip a.children) [frag]))
  else
    .node a.info [frag]

/-- `opget_build_tree_from_data` for one matched node
(op_get_config.c:119-183): deep-duplicate the match (the identity on pure
trees) and fold the ancestor steps, innermost parent first.  The final
`lyd_merge` into the reply root is a libyang collaborator. -/
def opget_build_tree_one (matched : DataNode) (ancestors : List DataNode) : DataNode :=
  ancestors.foldl (fun frag a => projectStep a frag) matched

mutual

/-- Key completeness of a whole tree: every list node carries a child per
schema-declared key. -/
def hasAllKeys : DataNode → Bool
  | .node info cs =>
    (if info.isList then info.keys.all (fun k => cs.any (fun c => c.info.id == k)) else true)
      && hasAllKeysList cs

/-- Key completeness of a forest. -/
def hasAllKeysList : List DataNode → Bool
  | [] => true
  | c :: cs => hasAllKeys c && hasAllKeysList cs

end

/-- The per-ancestor invariant the C asserts (op_get_config.c:143): the
original list's first `keys_size` children are exactly its keys in
declared order, and key children are leaves (not lists). -/
def listKeyInv (a : DataNode) : Bool :=
  ((a.children.take a.info.keys.length).map (fun c => c.info.id) == a.info.keys)
    && (a.children.take a.info.keys.length).all (fun c => !c.info.isList)

/-! ### Read orchestrator (op_get_config.c:569-866) -/

/-- The `strncmp(s, lit, strlen(lit)) == 0` prefix test. -/
def strncmpLit (s lit : String) : Bool :=
  lit.toList.isPrefixOf s.toList

/-- Where the assembly loop sends one compiled XPath. -/
inductive FilterRoute where
  | yangLibrary
  | monitoring
  | notifications
  | datastore
  | skipped
  deriving DecidableEq

/-- The assembly dispatch of `op_get` (op_get_config.c:750-808): the three
locally-served modules route to the local tree projector and are skipped
entirely under config-only; everything else goes to the sysrepo subtree
builder. -/
def routeFilter (configOnly : Bool) (f : String) : FilterRoute :=
  if strncmpLit f "/ietf-yang-library:" then
    if configOnly then .skipped else .yangLibrary
  else if strncmpLit f "/ietf-netconf-monitoring:" then
    if configOnly then .skipped else .monitoring
  else if strncmpLit f "/nc-notifications:" then
    if configOnly then .skipped else .notifications
  else .datastore

/-- The spec-side notion "top-level module name of an XPath": the segment
between the leading `/` and the first `:`. -/
def topModuleName (f : String) : String :=
  ⟨(f.toList.drop 1).takeWhile (fun c => c ≠ ':')⟩

/-- Whether a module owns a top-level schema node that is not a grouping,
RPC, or notification (op_get_config.c:697-703). -/
def moduleHasData (m : LyModule) : Bool :=
  m.data.any
    (fun s =>
      match s.nt with
      | .grouping => false
      | .notif => false
      | .rpc => false
      | _ => true)

/-- The no-filter branch of `op_get` (op_get_config.c:692-712): one
`/module-name:*` XPath per module with actual data definitions, in module
iteration order. -/
def noFilterFilters (mods : List LyModule) : List String :=
  mods.filterMap
    (fun m => if moduleHasData m then some ("/" ++ m.name ++ ":*") else none)

/-- A `lyd_attr` of the filter node. -/
structure LydAttr where
  name : String
  value : String
  deriving DecidableEq

/-- Result of the filter-attribute scan. -/
inductive FilterScan where
  | xpathSel (select : String)
  | subtree
  | missingSelect
  deriving DecidableEq

/-- The attribute scan of `op_get` (op_get_config.c:628-646): find a
`type` attribute; `type='xpath'` demands a `select` attribute (searched
over the whole attribute list) and its absence is an error; `type='subtree'`
— like no `type` attribute at all — selects the subtree branch. -/
def scanFilterType (attrs all : List LydAttr) : FilterScan :=
  match attrs with
  | [] => .subtree
  | a :: rest =>
    if a.name = "type" then
      if a.value = "xpath" then
        match all.find? (fun x => x.name == "select") with
        | some s => .xpathSel s.value
        | none => .missingSelect
      else if a.value = "subtree" then .subtree
      else scanFilterType rest all
    else scanFilterType rest all

/-- The anydata value of the `<filter>` node: empty, parsed XML (string
parsing by lyxml is a collaborator; the parsed forest is given), or a
value type that cannot be treated as XML (the `default:` error case). -/
inductive FilterContent where
  | emptyF
  | xmlF (forest : List XmlElem)
  | badF

/-- The `<filter>` element: its attributes and its anydata value. -/
structure NcFilter where
  attrs : List LydAttr
  content : FilterContent

/-- NETCONF datastores selected by `<get>`/`<get-config>`. -/
inductive NcDatastore where
  | running | startup | candidate
  deriving DecidableEq

/-- The inbound RPC as `op_get` consumes it. -/
structure OpGetInput where
  isGetConfig : Bool
  source : NcDatastore
  filter : Option NcFilter
  withDefaults : Option String
  candChanged : Bool

/-- NETCONF error tags used on the `error:` path. -/
inductive NcErrTag where
  | opFailed
  deriving DecidableEq

/-- NETCONF error types used on the `error:` path. -/
inductive NcErrType where
  | app
  deriving DecidableEq

/-- The reply kinds `op_get` can produce. -/
inductive NcReply where
  | dataReply (wd : NcWd)
  | errReply (tag : NcErrTag) (typ : NcErrType)
  deriving DecidableEq

/-- Datastore requests issued by the read path. -/
inductive SrQuery where
  | refresh
  | getItems (xpath : String)
  deriving DecidableEq

/-- The `<with-defaults>` leaf resolution (op_get_config.c:714-732);
`none` for an unrecognized value (the validated-input internal error). -/
def resolveWd (serverWd : NcWd) (leafVal : Option String) : Option NcWd :=
  match leafVal with
  | none => some serverWd
  | some v =>
    if v = "report-all" then some .all
    else if v = "report-all-tagged" then some .allTag
    else if v = "trim" then some .trim
    else if v = "explicit" then some .explicit
    else none

/-- The tail of `op_get` once a compiled filter list exists
(op_get_config.c:714-843): resolve with-defaults, refresh the datastore
(candidate only when it has not diverged), then route every filter; a
datastore-routed filter issues the `xpath//.` iterator request.  The tree
contents returned by the collaborators are not modelled here, only the
issued requests and the reply kind. -/
def runAssembly (serverWd : NcWd) (inp : OpGetInput) (filters : List String) :
    NcReply × List SrQuery :=
  match resolveWd serverWd inp.withDefaults with
  | none => (.errReply .opFailed .app, [])
  | some wd =>
    let configOnly := inp.isGetConfig
    let ds : NcDatastore := if inp.isGetConfig then inp.source else .running
    let refreshQ : List SrQuery :=
      if ds ≠ .candidate then [.refresh]
      else if inp.candChanged = false then [.refresh]
      else []
    let itemQs : List SrQuery :=
      filters.filterMap
        (fun f =>
          match routeFilter configOnly f with
          | .datastore => some (.getItems (f ++ "//."))
          | _ => none)
    (.dataReply wd, refreshQ ++ itemQs)

/-- `op_get` (op_get_config.c:569-866), modelled down to the level the
settled claims need: datastore selection and the session switch are
session-local (no datastore request); the filter-attribute scan and filter
compilation happen before any datastore request; the empty-filter and
empty-select shortcuts jump straight to the reply (skipping even the
`<with-defaults>` leaf, so the server default applies); a missing `select`
on an XPath filter, or an unparseable subtree value, takes the `error:`
path, an `operation-failed` application error. -/
def op_get_model (ctx : LyCtx) (serverWd : NcWd) (inp : OpGetInput) :
    NcReply × List SrQuery :=
  match inp.filter with
  | some fl =>
    match scanFilterType fl.attrs fl.attrs with
    | .missingSelect => (.errReply .opFailed .app, [])
    | .subtree =>
      match fl.content with
      | .emptyF => (.dataReply serverWd, [])
      | .badF => (.errReply .opFailed .app, [])
      | .xmlF forest =>
        runAssembly serverWd inp (opget_build_xpath_from_subtree_filter ctx forest)
    | .xpathSel sel =>
      if sel = "" then (.dataReply serverWd, [])
      else runAssembly serverWd inp [sel]
  | none =>
    runAssembly serverWd inp (noFilterFilters ctx.modules)

/-! ### Concrete scenario data -/

/-- Scenario S1: `<name>eth0</name>`. -/
def s1Name : XmlElem :=
  .mk "name" (some "urn:ietf-interfaces") [] (some "eth0") []

/-- Scenario S1: `<interface>` containment element. -/
def s1Interface : XmlElem :=
  .mk "interface" (some "urn:ietf-interfaces") [] none [s1Name]

/-- Scenario S1: the filter root `<interfaces xmlns="urn:ietf-interfaces">`. -/
def s1Filter : XmlElem :=
  .mk "interfaces" (some "urn:ietf-interfaces") [] none [s1Interface]

/-- Scenario S1: a context with the `ietf-interfaces` module loaded. -/
def s1Ctx : LyCtx :=
  ⟨[⟨"ietf-interfaces", "urn:ietf-interfaces", [⟨"interfaces", .container⟩]⟩]⟩

/-! ## Theorems -/

/-! ### Helper lemmas -/

theorem hasAllKeysList_eq_all (cs : List DataNode) :
    hasAllKeysList cs = cs.all hasAllKeys := by
  induction cs with
  | nil => rfl
  | cons c cs ih => simp [hasAllKeysList, ih]

theorem descendPath_eq_of_wf (l : List PNode)
    (h : l.dropLast.all (fun n => !isLeafLike n.sc) = true) :
    descendPath l = l := by
  induction l with
  | nil => rfl
  | cons n rest ih =>
    cases rest with
    | nil => rfl
    | cons m rest' =>
      have hd : (n :: m :: rest').dropLast = n :: (m :: rest').dropLast := rfl
      rw [hd, List.all_cons, Bool.and_eq_true] at h
      have h1 : isLeafLike n.sc = false := by
        cases hval : isLeafLike n.sc
        · rfl
        · rw [hval] at h; exact absurd h.1 (by simp)
      rw [descendPath, h1]
      simp only [Bool.false_eq_true, if_false]
      rw [ih h.2]

theorem markUp_eq (l : List PNode) :
    markUp l = (l.takeWhile (fun n => !isBlocker n.sc)).map (fun n => ⟨n.sc, true⟩)
      ++ l.dropWhile (fun n => !isBlocker n.sc) := by
  induction l with
  | nil => rfl
  | cons x xs ih =>
    cases h : isBlocker x.sc
    · simp [markUp, h, List.takeWhile_cons, List.dropWhile_cons, ih]
    · simp [markUp, h, List.takeWhile_cons, List.dropWhile_cons]

theorem clearUp_eq (l : List PNode) :
    clearUp l = (l.takeWhile (fun n => n.dflt)).map (fun n => ⟨n.sc, false⟩)
      ++ l.dropWhile (fun n => n.dflt) := by
  induction l with
  | nil => rfl
  | cons x xs ih =>
    cases h : x.dflt
    · simp [clearUp, h, List.takeWhile_cons, List.dropWhile_cons]
    · simp [clearUp, h, List.takeWhile_cons, List.dropWhile_cons, ih]

/-! ### C1: the with-defaults decision table -/

/-- C1: the per-leaf with-defaults decision of `op_dflt_data_inspect`
follows the table: under report-all every value is kept; under trim a leaf
is dropped when its default flag is set, dropped when the flag is clear but
the value equals the effective schema default (own default, else the first
typedef-chain default), kept otherwise; under report-all-tagged a leaf
whose flag is clear but whose value equals the effective default is kept
with the default-indicator tag (return 1); under explicit a default-flagged
leaf is dropped exactly when the schema node is config-writable and the
value is not RPC output, and every other value is kept. -/
theorem defaults_table_C1 (sleaf : SLeaf) (value : SrVal) (rpcOutput : Bool)
    (hleaf : sleaf.nodetype = .leaf) :
    (∀ (lk : Option SLeaf) (v : SrVal) (rpc : Bool), op_dflt_data_inspect lk v .all rpc = 0)
  ∧ op_dflt_data_inspect (some sleaf) value .trim rpcOutput =
      (if value.dflt then -1 else if valEqDflt sleaf value then -1 else 0)
  ∧ (value.dflt = false → valEqDflt sleaf value = true →
      op_dflt_data_inspect (some sleaf) value .allTag rpcOutput = 1)
  ∧ op_dflt_data_inspect (some sleaf) value .explicit rpcOutput =
      (if value.dflt ∧ sleaf.configW ∧ rpcOutput = false then -1 else 0) := by
  refine ⟨fun lk v rpc => rfl, ?_, ?_, ?_⟩
  · cases hd : value.dflt <;>
      simp [op_dflt_data_inspect, hleaf, hd, valEqDflt]
  · intro h1 h2
    simp only [valEqDflt] at h2
    simp [op_dflt_data_inspect, hleaf, h1, h2]
  · cases hd : value.dflt <;>
      simp [op_dflt_data_inspect, hleaf, hd]

/-- Witness for C1 at concrete inputs: a non-default string leaf whose
value "5" equals its declared default is dropped under trim and tagged
under report-all-tagged; a default-flagged config leaf is dropped under
explicit. -/
theorem defaults_table_C1_witness :
    op_dflt_data_inspect (some ⟨.leaf, true, some "5", [], 0⟩)
      ⟨some "/m:l", false, .string, some "5", false, 0, 0, 0⟩ .trim false = -1
  ∧ op_dflt_data_inspect (some ⟨.leaf, true, some "5", [], 0⟩)
      ⟨some "/m:l", false, .string, some "5", false, 0, 0, 0⟩ .allTag false = 1
  ∧ op_dflt_data_inspect (some ⟨.leaf, true, some "5", [], 0⟩)
      ⟨some "/m:l", true, .string, some "5", false, 0, 0, 0⟩ .explicit false = -1 := by
  refine ⟨?_, ?_, ?_⟩
  · rw [(defaults_table_C1 ⟨.leaf, true, some "5", [], 0⟩
      ⟨some "/m:l", false, .string, some "5", false, 0, 0, 0⟩ false rfl).2.1]
    decide
  · exact (defaults_table_C1 ⟨.leaf, true, some "5", [], 0⟩
      ⟨some "/m:l", false, .string, some "5", false, 0, 0, 0⟩ false rfl).2.2.1 rfl (by decide)
  · rw [(defaults_table_C1 ⟨.leaf, true, some "5", [], 0⟩
      ⟨some "/m:l", true, .string, some "5", false, 0, 0, 0⟩ false rfl).2.2.2]
    decide

/-! ### C3: default-flag propagation in the subtree builder -/

/-- C3: for a value with the default flag set, the builder descends from
the inserted node along first-child links to the deepest node of the chain
(given that only its last node is leaf-like, i.e. the chain ends at the
leaf) and walks back upward setting the default flag on each node,
stopping at — and excluding — any presence container or keyed list (all
nodes above a blocker stay untouched); ancestors above the node are not
modified.  For a value with the flag clear, the builder walks from the
inserted node's parent upward clearing the default flag on each ancestor
still marked default, stopping at the first non-default ancestor; the node
chain is not modified. -/
theorem default_propagation_C3 :
    (∀ (anc l : List PNode), l.dropLast.all (fun n => !isLeafLike n.sc) = true →
       propagateDflt true anc l =
         (anc,
          ((l.reverse.takeWhile (fun n => !isBlocker n.sc)).map
              (fun n => (⟨n.sc, true⟩ : PNode))
            ++ l.reverse.dropWhile (fun n => !isBlocker n.sc)).reverse))
  ∧ (∀ (anc l : List PNode), propagateDflt false anc l =
       ((anc.takeWhile (fun n => n.dflt)).map (fun n => (⟨n.sc, false⟩ : PNode))
          ++ anc.dropWhile (fun n => n.dflt), l)) := by
  constructor
  · intro anc l h
    simp [propagateDflt, propagateTrue, descendPath_eq_of_wf l h, markUp_eq]
  · intro anc l
    simp [propagateDflt, clearUp_eq]

/-- Witness for C3: a default leaf under a plain container marks both
(the keyed-list ancestor above is untouched), and a non-default value
clears the marked ancestor prefix. -/
theorem default_propagation_C3_witness :
    propagateDflt true [⟨.listP 1, false⟩]
      [⟨.containerP false, false⟩, ⟨.leafP, false⟩] =
      ([⟨.listP 1, false⟩], [⟨.containerP false, true⟩, ⟨.leafP, true⟩])
  ∧ propagateDflt false [⟨.containerP false, true⟩, ⟨.containerP false, false⟩]
      [⟨.leafP, false⟩] =
      ([⟨.containerP false, false⟩, ⟨.containerP false, false⟩], [⟨.leafP, false⟩]) := by
  constructor
  · exact (default_propagation_C3.1 [⟨.listP 1, false⟩]
      [⟨.containerP false, false⟩, ⟨.leafP, false⟩] (by decide)).trans (by decide)
  · exact (default_propagation_C3.2 [⟨.containerP false, true⟩, ⟨.containerP false, false⟩]
      [⟨.leafP, false⟩]).trans (by decide)

/-! ### C6: op_set_srval on unrecognized base types -/

/-- C6 counterexample: for a leaf of base type union (equally leafref or
derived), `op_set_srval` does not fail — it returns success (0), merely
tagging the value `SR_UNKNOWN_T`.  The claim "fails with an InvalidType
error ... never carried into the datastore value" is false at this
input. -/
theorem set_srval_unknown_C6_cex :
    (op_set_srval ⟨.leaf, .union⟩ (some "/m:l") false).isOk = true := rfl

/-- C6 amended: for a leaf or leaf-list whose base type is unrecognized
(leafref, union, derived), `op_set_srval` returns success but sets the
value's type tag to `SR_UNKNOWN_T` and carries no data for it (the data
union keeps its zero initialization), which callers must treat as "do not
carry". -/
theorem set_srval_unknown_C6 (node : LydNode) (path : Option String) (dup : Bool)
    (hn : node.nodetype = .leaf ∨ node.nodetype = .leaflist)
    (hc : node.content = .leafref ∨ node.content = .union ∨ node.content = .derived) :
    op_set_srval node path dup =
      .ok { xpath := path, dflt := false, type := .unknown, data := .int 0 } := by
  obtain ⟨nt, ct⟩ := node
  simp only at hn hc
  rcases hn with h | h <;> subst h <;> rcases hc with h | h | h <;> subst h <;> rfl

/-- Witness for C6 (amended) at a concrete leafref leaf. -/
theorem set_srval_unknown_C6_witness :
    op_set_srval ⟨.leaf, .leafref⟩ (some "/m:l") true =
      .ok { xpath := some "/m:l", dflt := false, type := .unknown, data := .int 0 } :=
  set_srval_unknown_C6 ⟨.leaf, .leafref⟩ (some "/m:l") true (Or.inl rfl) (Or.inl rfl)

/-! ### C7: subtree-builder error handling -/

/-- C7: for every session (iterator behaviour `gi`) and every XPath, when
the iterator request fails with `SR_ERR_UNKNOWN_MODEL` or
`SR_ERR_NOT_FOUND` the builder returns success with the response tree root
unchanged; any other sysrepo error is fatal (-1), regardless of the loop
body `pi`. -/
theorem subtree_builder_errors_C7 {τ : Type} :
    (∀ (gi : String → Except SrErr (List SrVal))
       (pi : List SrVal → Option τ → Except Unit (Option τ))
       (root : Option τ) (xp : String),
       gi (xp ++ "//.") = .error .unknownModel →
       opget_build_subtree_from_sysrepo gi pi root xp = .ok root)
  ∧ (∀ (gi : String → Except SrErr (List SrVal))
       (pi : List SrVal → Option τ → Except Unit (Option τ))
       (root : Option τ) (xp : String),
       gi (xp ++ "//.") = .error .notFound →
       opget_build_subtree_from_sysrepo gi pi root xp = .ok root)
  ∧ (∀ (gi : String → Except SrErr (List SrVal))
       (pi : List SrVal → Option τ → Except Unit (Option τ))
       (root : Option τ) (xp : String) (c : Nat),
       gi (xp ++ "//.") = .error (.other c) →
       opget_build_subtree_from_sysrepo gi pi root xp = .error ()) := by
  refine ⟨?_, ?_, ?_⟩
  · intro gi pi root xp h
    unfold opget_build_subtree_from_sysrepo
    rw [h]
  · intro gi pi root xp h
    unfold opget_build_subtree_from_sysrepo
    rw [h]
  · intro gi pi root xp c h
    unfold opget_build_subtree_from_sysrepo
    rw [h]

/-- Witness for C7 at concrete backends over a unit tree type. -/
theorem subtree_builder_errors_C7_witness :
    opget_build_subtree_from_sysrepo (fun _ => .error .unknownModel)
      (fun _ r => .ok r) (none : Option Unit) "/a:b" = .ok none
  ∧ opget_build_subtree_from_sysrepo (fun _ => .error .notFound)
      (fun _ r => .ok r) (none : Option Unit) "/a:b" = .ok none
  ∧ opget_build_subtree_from_sysrepo (fun _ => .error (.other 2))
      (fun _ r => .ok r) (none : Option Unit) "/a:b" = .error () :=
  ⟨subtree_builder_errors_C7.1 _ _ _ _ rfl,
   subtree_builder_errors_C7.2.1 _ _ _ _ rfl,
   subtree_builder_errors_C7.2.2 _ _ _ _ 2 rfl⟩

/-! ### C8: the no-filter compiled filter -/

/-- C8: with no filter element, the compiled filter holds exactly one
XPath `/module-name:*` per loaded module owning at least one top-level
schema node that is not a grouping, RPC or notification, in module order,
and nothing for any other module; with exactly the modules a (leaf `x`),
b (an RPC and a container) and c (only a grouping), the result is
`["/a:*", "/b:*"]`. -/
theorem no_filter_compile_C8 :
    (∀ mods : List LyModule,
       noFilterFilters mods =
         (mods.filter moduleHasData).map (fun m => "/" ++ m.name ++ ":*"))
  ∧ noFilterFilters
      [⟨"a", "urn:a", [⟨"x", .leaf⟩]⟩,
       ⟨"b", "urn:b", [⟨"r", .rpc⟩, ⟨"c", .container⟩]⟩,
       ⟨"c", "urn:c", [⟨"g", .grouping⟩]⟩] = ["/a:*", "/b:*"] := by
  constructor
  · intro mods
    induction mods with
    | nil => rfl
    | cons m rest ih =>
      simp only [noFilterFilters] at ih ⊢
      rw [List.filterMap_cons, List.filter_cons]
      cases h : moduleHasData m
      · simp [h, ih]
      · simp [h, ih]
  · rfl

/-! ### C10: op_set_srval success shape -/

/-- C10: whenever `op_set_srval` succeeds, the produced sysrepo value has
its default flag cleared (0) and its xpath equal to the supplied path (the
C makes a fresh copy of the string when `dup` is set and borrows the
pointer otherwise; both hold the same path value).  The codec never marks
a converted value as default. -/
theorem set_srval_success_C10 (node : LydNode) (path : Option String) (dup : Bool)
    (v : SrValOut) (h : op_set_srval node path dup = .ok v) :
    v.dflt = false ∧ v.xpath = path := by
  obtain ⟨nt, ct⟩ := node
  cases nt <;> cases ct <;>
    simp only [op_set_srval] at h <;>
    (repeat' split at h) <;>
    cases h <;> exact ⟨rfl, rfl⟩

/-- Witness for C10 at a concrete boolean leaf. -/
theorem set_srval_success_C10_witness :
    ({ xpath := some "/m:b", dflt := false, type := .bool,
       data := .boolean true } : SrValOut).dflt = false
  ∧ ({ xpath := some "/m:b", dflt := false, type := .bool,
       data := .boolean true } : SrValOut).xpath = some "/m:b" :=
  set_srval_success_C10 ⟨.leaf, .bln true⟩ (some "/m:b") false _ rfl

/-! ### C5: assembly routing by top-level module name -/

theorem toList_append (s t : String) : (s ++ t).toList = s.toList ++ t.toList := by
  cases s
  cases t
  rfl

theorem toList_inj (s t : String) (h : s.toList = t.toList) : s = t := by
  cases s
  cases t
  exact congrArg String.mk h

theorem litPrefixColon_iff (b : List Char) : ∀ (a x : List Char),
    a.all (fun c => c ≠ ':') = true → b.all (fun c => c ≠ ':') = true →
    (List.isPrefixOf (b ++ [':']) (a ++ ':' :: x) = true ↔ a = b) := by
  induction b with
  | nil =>
    intro a x ha hb
    cases a with
    | nil => simp [List.isPrefixOf]
    | cons c a' =>
      simp only [List.all_cons, Bool.and_eq_true, decide_eq_true_eq] at ha
      constructor
      · intro h
        exfalso
        have hh : ((':' == c) && List.isPrefixOf ([] : List Char)
            (a' ++ ':' :: x)) = true := h
        rw [Bool.and_eq_true, beq_iff_eq] at hh
        exact ha.1 hh.1.symm
      · intro h
        cases h
  | cons d b' ih =>
    intro a x ha hb
    simp only [List.all_cons, Bool.and_eq_true, decide_eq_true_eq] at hb
    cases a with
    | nil =>
      constructor
      · intro h
        exfalso
        have hh : ((d == ':') && List.isPrefixOf (b' ++ [':']) x) = true := h
        rw [Bool.and_eq_true, beq_iff_eq] at hh
        exact hb.1 hh.1
      · intro h
        cases h
    | cons c a' =>
      simp only [List.all_cons, Bool.and_eq_true, decide_eq_true_eq] at ha
      have hstep : List.isPrefixOf ((d :: b') ++ [':']) ((c :: a') ++ ':' :: x)
          = ((d == c) && List.isPrefixOf (b' ++ [':']) (a' ++ ':' :: x)) := rfl
      rw [hstep, Bool.and_eq_true, beq_iff_eq, ih a' x ha.2 hb.2]
      constructor
      · rintro ⟨h1, h2⟩
        rw [h1, h2]
      · intro h
        injection h with h1 h2
        exact ⟨h1.symm, h2⟩

theorem strncmp_top (m rest lit : String)
    (hm : m.toList.all (fun c => c ≠ ':') = true)
    (hl : lit.toList.all (fun c => c ≠ ':') = true) :
    strncmpLit ("/" ++ m ++ ":" ++ rest) ("/" ++ lit ++ ":") = (m == lit) := by
  have hs : ("/" ++ m ++ ":" ++ rest).toList = '/' :: (m.toList ++ ':' :: rest.toList) := by
    simp [toList_append]
  have hp : ("/" ++ lit ++ ":").toList = '/' :: (lit.toList ++ [':']) := by
    simp [toList_append]
  unfold strncmpLit
  rw [hs, hp]
  have hred : List.isPrefixOf ('/' :: (lit.toList ++ [':']))
      ('/' :: (m.toList ++ ':' :: rest.toList))
      = List.isPrefixOf (lit.toList ++ [':']) (m.toList ++ ':' :: rest.toList) := by
    simp [List.isPrefixOf]
  rw [hred]
  have key := litPrefixColon_iff lit.toList m.toList rest.toList hm hl
  by_cases h : m = lit
  · subst h
    rw [key.mpr rfl]
    simp
  · have h2 : List.isPrefixOf (lit.toList ++ [':']) (m.toList ++ ':' :: rest.toList) = false := by
      cases hres : List.isPrefixOf (lit.toList ++ [':']) (m.toList ++ ':' :: rest.toList)
      · rfl
      · exact absurd (toList_inj _ _ (key.mp hres)) h
    rw [h2]
    exact (beq_eq_false_iff_ne.mpr h).symm

/-- C5: the assembly loop's dispatch.  An XPath whose top-level module
name is ietf-yang-library, ietf-netconf-monitoring or nc-notifications is
routed to the local tree projector over the corresponding in-memory tree,
and is skipped entirely (the loop `continue`s without touching the reply)
when the operation is config-only (`get-config`); every other XPath is
routed to the sysrepo-backed subtree builder.  The XPath is decomposed as
`/m:rest` with `m` colon-free, the "top-level module name". -/
theorem assembly_routing_C5 (co : Bool) (m rest : String)
    (hm : m.toList.all (fun c => c ≠ ':') = true) :
    routeFilter co ("/" ++ m ++ ":" ++ rest) =
      (if m = "ietf-yang-library" then (if co then .skipped else .yangLibrary)
       else if m = "ietf-netconf-monitoring" then (if co then .skipped else .monitoring)
       else if m = "nc-notifications" then (if co then .skipped else .notifications)
       else .datastore) := by
  have e1 : ("/ietf-yang-library:" : String) = "/" ++ "ietf-yang-library" ++ ":" := rfl
  have e2 : ("/ietf-netconf-monitoring:" : String)
      = "/" ++ "ietf-netconf-monitoring" ++ ":" := rfl
  have e3 : ("/nc-notifications:" : String) = "/" ++ "nc-notifications" ++ ":" := rfl
  unfold routeFilter
  rw [e1, e2, e3,
      strncmp_top m rest "ietf-yang-library" hm (by decide),
      strncmp_top m rest "ietf-netconf-monitoring" hm (by decide),
      strncmp_top m rest "nc-notifications" hm (by decide)]
  by_cases h1 : m = "ietf-yang-library"
  · simp [h1]
  · by_cases h2 : m = "ietf-netconf-monitoring"
    · simp [h1, h2]
    · by_cases h3 : m = "nc-notifications"
      · simp [h1, h2, h3]
      · simp [h1, h2, h3]

/-- Witness for C5: a monitoring XPath is skipped under config-only and a
foreign-module XPath goes to the datastore. -/
theorem assembly_routing_C5_witness :
    routeFilter true ("/" ++ "ietf-netconf-monitoring" ++ ":" ++ "*") = .skipped
  ∧ routeFilter false ("/" ++ "x" ++ ":" ++ "*") = .datastore := by
  constructor
  · rw [assembly_routing_C5 true "ietf-netconf-monitoring" "*" (by decide)]
    decide
  · rw [assembly_routing_C5 false "x" "*" (by decide)]
    decide

/-! ### C9: xpath filter without a select attribute -/

theorem scanFilterType_missing (attrs : List LydAttr) : ∀ (all : List LydAttr) (a : LydAttr),
    (∀ x ∈ all, x.name ≠ "select") →
    attrs.find? (fun x => x.name == "type") = some a →
    a.value = "xpath" →
    scanFilterType attrs all = .missingSelect := by
  induction attrs with
  | nil =>
    intro all a hall hfind hv
    simp at hfind
  | cons b rest ih =>
    intro all a hall hfind hv
    rw [List.find?_cons] at hfind
    by_cases hb : b.name = "type"
    · simp only [hb, beq_self_eq_true] at hfind
      obtain rfl : b = a := by injection hfind
      have hnone : all.find? (fun x => x.name == "select") = none :=
        List.find?_eq_none.mpr (fun x hx => by simpa using hall x hx)
      simp [scanFilterType, hb, hv, hnone]
    · have hb2 : (b.name == "type") = false := by simpa using hb
      simp only [hb2] at hfind
      simp only [scanFilterType, hb, if_false]
      exact ih all a hall hfind hv

/-- C9: an inbound get/get-config whose filter element carries
`type='xpath'` (its first `type` attribute) but no `select` attribute
produces no data reply: `op_get` takes the `error:` path, returning a
NETCONF error of type application with tag operation-failed, and no
datastore request (refresh or iterator) is ever issued. -/
theorem xpath_missing_select_C9 (ctx : LyCtx) (serverWd : NcWd) (inp : OpGetInput)
    (fl : NcFilter) (a : LydAttr)
    (hf : inp.filter = some fl)
    (hfind : fl.attrs.find? (fun x => x.name == "type") = some a)
    (hv : a.value = "xpath")
    (hs : ∀ x ∈ fl.attrs, x.name ≠ "select") :
    op_get_model ctx serverWd inp = (.errReply .opFailed .app, []) := by
  have hscan := scanFilterType_missing fl.attrs fl.attrs a hs hfind hv
  unfold op_get_model
  rw [hf]
  simp [hscan]

/-- Witness for C9 at a concrete RPC with `type='xpath'` and no select. -/
theorem xpath_missing_select_C9_witness :
    op_get_model ⟨[]⟩ .explicit
      ⟨false, .running, some ⟨[⟨"type", "xpath"⟩], .emptyF⟩, none, false⟩
      = (.errReply .opFailed .app, []) :=
  xpath_missing_select_C9 ⟨[]⟩ .explicit
    ⟨false, .running, some ⟨[⟨"type", "xpath"⟩], .emptyF⟩, none, false⟩
    ⟨[⟨"type", "xpath"⟩], .emptyF⟩ ⟨"type", "xpath"⟩ rfl rfl rfl (by decide)

/-! ### C4: list-key completeness in the local tree projector -/

theorem addMissingKeys_cons (p : Nat × DataNode) (ps : List (Nat × DataNode))
    (cur : List DataNode) :
    addMissingKeys (p :: ps) cur =
      addMissingKeys ps
        (if cur.any (fun c => c.info.id == p.1) then cur else cur ++ [shallowDup p.2]) := by
  simp only [addMissingKeys, List.foldl_cons]

theorem addMissingKeys_mono (ps : List (Nat × DataNode)) :
    ∀ (cur : List DataNode) (k : Nat),
    cur.any (fun c => c.info.id == k) = true →
    (addMissingKeys ps cur).any (fun c => c.info.id == k) = true := by
  induction ps with
  | nil => intro cur k h; exact h
  | cons p ps ih =>
    intro cur k h
    rw [addMissingKeys_cons]
    apply ih
    split
    · exact h
    · rw [List.any_append, h, Bool.true_or]

theorem addMissingKeys_covers (ps : List (Nat × DataNode)) :
    ∀ (cur : List DataNode) (k : Nat) (kn : DataNode),
    (k, kn) ∈ ps → kn.info.id = k →
    (addMissingKeys ps cur).any (fun c => c.info.id == k) = true := by
  induction ps with
  | nil => intro cur k kn h _; cases h
  | cons p ps ih =>
    intro cur k kn hmem hid
    rw [addMissingKeys_cons]
    rcases List.mem_cons.mp hmem with heq | htail
    · cases heq
      split
      · exact addMissingKeys_mono ps cur k (by assumption)
      · apply addMissingKeys_mono
        rw [List.any_append]
        have hone : (List.any [shallowDup kn] fun c => c.info.id == k) = true := by
          simp only [List.any_cons, List.any_nil, Bool.or_false]
          show (kn.info.id == k) = true
          simpa using hid
        rw [hone, Bool.or_true]
    · exact ih _ k kn htail hid

theorem addMissingKeys_mem (ps : List (Nat × DataNode)) :
    ∀ (cur : List DataNode) (x : DataNode),
    x ∈ addMissingKeys ps cur →
    x ∈ cur ∨ ∃ p ∈ ps, x = shallowDup p.2 := by
  induction ps with
  | nil => intro cur x h; exact Or.inl h
  | cons p ps ih =>
    intro cur x h
    rw [addMissingKeys_cons] at h
    rcases ih _ x h with hc | ⟨q, hq, hx⟩
    · split at hc
      · exact Or.inl hc
      · rcases List.mem_append.mp hc with h1 | h2
        · exact Or.inl h1
        · refine Or.inr ⟨p, List.mem_cons_self p ps, ?_⟩
          simpa using h2
    · exact Or.inr ⟨q, List.mem_cons_of_mem p hq, hx⟩

theorem zip_pairs_id (keys : List Nat) : ∀ (children : List DataNode),
    (children.take keys.length).map (fun c => c.info.id) = keys →
    ∀ p ∈ keys.zip children, p.2.info.id = p.1 := by
  induction keys with
  | nil => intro children _ p hp; cases hp
  | cons k ks ih =>
    intro children h p hp
    cases children with
    | nil => cases hp
    | cons c cs =>
      have hh : c.info.id :: (cs.take ks.length).map (fun c => c.info.id) = k :: ks := h
      injection hh with h1 h2
      rcases List.mem_cons.mp hp with heq | htail
      · cases heq; exact h1
      · exact ih cs h2 p htail

theorem zip_pairs_mem_take (keys : List Nat) : ∀ (children : List DataNode),
    ∀ p ∈ keys.zip children, p.2 ∈ children.take keys.length := by
  induction keys with
  | nil => intro children p hp; cases hp
  | cons k ks ih =>
    intro children p hp
    cases children with
    | nil => cases hp
    | cons c cs =>
      rcases List.mem_cons.mp hp with heq | htail
      · cases heq; exact List.mem_cons_self _ _
      · exact List.mem_cons_of_mem _ (ih cs p htail)

theorem mem_zip_of_mem_left (keys : List Nat) : ∀ (children : List DataNode) (k : Nat),
    k ∈ keys → keys.length ≤ children.length →
    ∃ c, (k, c) ∈ keys.zip children := by
  induction keys with
  | nil => intro children k hk _; cases hk
  | cons k0 ks ih =>
    intro children k hk hlen
    cases children with
    | nil => simp at hlen
    | cons c cs =>
      rcases List.mem_cons.mp hk with heq | htail
      · cases heq; exact ⟨c, List.mem_cons_self _ _⟩
      · have hlen' : ks.length ≤ cs.length := by
          simp only [List.length_cons] at hlen; omega
        obtain ⟨c', hc'⟩ := ih cs k htail hlen'
        exact ⟨c', List.mem_cons_of_mem _ hc'⟩

theorem keys_le_children (keys : List Nat) (children : List DataNode)
    (h : (children.take keys.length).map (fun c => c.info.id) = keys) :
    keys.length ≤ children.length := by
  have hl := congrArg List.length h
  simp only [List.length_map, List.length_take] at hl
  omega

theorem sortChildren_any (l : List DataNode) (p : DataNode → Bool) :
    (sortChildren l).any p = l.any p := by
  cases h : l.any p
  · cases h2 : (sortChildren l).any p
    · rfl
    · exfalso
      rw [List.any_eq_true] at h2
      obtain ⟨x, hx, hp⟩ := h2
      have hx2 := (List.perm_insertionSort rankLe l).mem_iff.mp hx
      have hcontra := List.any_eq_true.mpr ⟨x, hx2, hp⟩
      rw [h] at hcontra
      cases hcontra
  · rw [List.any_eq_true] at h
    obtain ⟨x, hx, hp⟩ := h
    exact List.any_eq_true.mpr
      ⟨x, (List.perm_insertionSort rankLe l).mem_iff.mpr hx, hp⟩

theorem projectStep_list_spec (a frag : DataNode) (hl : a.info.isList = true)
    (hinv : listKeyInv a = true) :
    (∀ k ∈ a.info.keys,
       ((projectStep a frag).children.any (fun c => c.info.id == k)) = true)
    ∧ List.Sorted rankLe (projectStep a frag).children := by
  rw [listKeyInv, Bool.and_eq_true] at hinv
  have hinv1 : (a.children.take a.info.keys.length).map (fun c => c.info.id) = a.info.keys :=
    eq_of_beq hinv.1
  have hch : (projectStep a frag).children
      = sortChildren (addMissingKeys (a.info.keys.zip a.children) [frag]) := by
    simp [projectStep, hl, DataNode.children]
  constructor
  · intro k hk
    obtain ⟨c, hc⟩ := mem_zip_of_mem_left a.info.keys a.children k hk
      (keys_le_children _ _ hinv1)
    have hid := zip_pairs_id a.info.keys a.children hinv1 _ hc
    rw [hch, sortChildren_any]
    exact addMissingKeys_covers _ _ k c hc hid
  · rw [hch]
    exact List.sorted_insertionSort rankLe _

theorem projectStep_hasAllKeys (a m : DataNode) (hm : hasAllKeys m = true)
    (ha : a.info.isList = true → listKeyInv a = true) :
    hasAllKeys (projectStep a m) = true := by
  by_cases hl : a.info.isList = true
  · have hinv := ha hl
    have hspec := projectStep_list_spec a m hl hinv
    rw [listKeyInv, Bool.and_eq_true] at hinv
    have hinv2 : ∀ c ∈ a.children.take a.info.keys.length, c.info.isList = false := by
      intro c hc
      have := List.all_eq_true.mp hinv.2 c hc
      simpa using this
    have hch : projectStep a m
        = .node a.info (sortChildren (addMissingKeys (a.info.keys.zip a.children) [m])) := by
      simp [projectStep, hl]
    rw [hch, hasAllKeys, hl, Bool.and_eq_true]
    constructor
    · split
      · rw [List.all_eq_true]
        intro k hk
        have hx := (hspec.1 k hk)
        rw [hch] at hx
        simpa [DataNode.children] using hx
      · rfl
    · rw [hasAllKeysList_eq_all, List.all_eq_true]
      intro x hx
      have hx2 := (List.perm_insertionSort rankLe _).mem_iff.mp hx
      rcases addMissingKeys_mem _ _ x hx2 with hcur | ⟨p, hp, hxd⟩
      · rw [List.mem_singleton] at hcur
        subst hcur
        exact hm
      · have hmem := zip_pairs_mem_take a.info.keys a.children p hp
        have hnl := hinv2 _ hmem
        rw [hxd]
        simp [shallowDup, hasAllKeys, hasAllKeysList, hnl]
  · have hlf : a.info.isList = false := by
      cases hval : a.info.isList
      · rfl
      · exact absurd hval hl
    simp [projectStep, hlf, hasAllKeys, hasAllKeysList, hm]

theorem build_tree_keys (ancestors : List DataNode) : ∀ (matched : DataNode),
    hasAllKeys matched = true →
    (∀ a ∈ ancestors, a.info.isList = true → listKeyInv a = true) →
    hasAllKeys (opget_build_tree_one matched ancestors) = true := by
  induction ancestors with
  | nil => intro m hm _; exact hm
  | cons a rest ih =>
    intro m hm ha
    have hstep : hasAllKeys (projectStep a m) = true :=
      projectStep_hasAllKeys a m hm (ha a (List.mem_cons_self a rest))
    have hrest : ∀ x ∈ rest, x.info.isList = true → listKeyInv x = true :=
      fun x hx => ha x (List.mem_cons_of_mem a hx)
    exact ih (projectStep a m) hstep hrest

/-- C4: given a matched node whose own subtree is key-complete (the data
tree invariant, preserved by the deep duplicate) and ancestors whose lists
satisfy the keys-first layout the C asserts, the projector output is
key-complete: every list instance of the projected tree carries every
schema-declared key among its direct children.  Moreover each list
ancestor step itself guarantees every schema key among the duplicated
list's direct children (shallow-duplicating any missing key from the
original) and leaves those children sorted in schema order. -/
theorem projector_key_completeness_C4 (matched : DataNode) (ancestors : List DataNode)
    (hm : hasAllKeys matched = true)
    (ha : ∀ a ∈ ancestors, a.info.isList = true → listKeyInv a = true) :
    hasAllKeys (opget_build_tree_one matched ancestors) = true
  ∧ (∀ (a frag : DataNode), a.info.isList = true → listKeyInv a = true →
      (∀ k ∈ a.info.keys,
         ((projectStep a frag).children.any (fun c => c.info.id == k)) = true)
      ∧ List.Sorted rankLe (projectStep a frag).children) :=
  ⟨build_tree_keys ancestors matched hm ha,
   fun a frag hl hinv => projectStep_list_spec a frag hl hinv⟩

/-! ### C2: content-match compilation -/

/-- C2: for a containment element's content-match child (childless, with
non-whitespace text), the compiler appends the predicate
`[module:localName='trimmed-text']` — leading/trailing whitespace stripped
— to the accumulated XPath (shown for an attribute-free child; resolvable
attributes would be inserted between the name and the `='…']`), emits in
the same step a separate selection-form XPath ending at that child (the
accumulated buffer extended by the node form of the child), and removes
the child: the content pass continues with the remaining children only and
the child never reaches the branching pass.  In particular the S1 filter
`<interfaces xmlns="urn:ietf-interfaces"><interface><name>eth0</name>
</interface></interfaces>` compiles to exactly the two XPaths
`/ietf-interfaces:interfaces/interface[name='eth0']` and
`/ietf-interfaces:interfaces/interface[name='eth0']/name` (the code emits
the selection form first; the claim is order-insensitive). -/
theorem content_match_compile_C2 :
    (∀ (ctx : LyCtx) (mn : Option String) (c : XmlElem) (rest : List XmlElem)
       (buf ns buf1 ns1 sel ns2 : String),
       isContentMatch c = true →
       opget_xpath_buf_add_content ctx c mn ns buf = some (buf1, ns1) →
       opget_xpath_buf_add_node ctx c mn ns1 buf1 = some (sel, ns2) →
       (∀ (pm : Option String) (ns1b : String), c.attrs = [] →
          resolveNsMod ctx c.ns mn ns = some (pm, ns1b) →
          buf1 = buf ++ "[" ++ modPfx pm ++ c.name ++ "='"
            ++ trimWs (c.content.getD "") ++ "']")
       ∧ contentLoop ctx mn (c :: rest) buf ns =
           (sel :: (contentLoop ctx mn rest buf1 ns2).1,
            (contentLoop ctx mn rest buf1 ns2).2)
       ∧ c ∉ (c :: rest).filter (fun x => !isContentMatch x))
  ∧ opget_build_xpath_from_subtree_filter s1Ctx [s1Filter] =
      ["/ietf-interfaces:interfaces/interface[name='eth0']/name",
       "/ietf-interfaces:interfaces/interface[name='eth0']"] := by
  constructor
  · intro ctx mn c rest buf ns buf1 ns1 sel ns2 hcm hcontent hnode
    refine ⟨?_, ?_, ?_⟩
    · intro pm ns1b hattrs hres
      simp only [opget_xpath_buf_add_content, hres] at hcontent
      simp only [hattrs, opget_xpath_buf_add_attrs, List.foldl_nil] at hcontent
      injection hcontent with hc
      injection hc with ha hb
      exact ha.symm
    · simp [contentLoop, hcm, hcontent, hnode]
    · intro hmem
      have h2 := (List.mem_filter.mp hmem).2
      simp [hcm] at h2
  · simp [opget_build_xpath_from_subtree_filter, opget_xpath_buf_add, branchLoop,
      contentLoop, opget_xpath_buf_add_node, opget_xpath_buf_add_content,
      opget_xpath_buf_add_attrs, resolveNsMod, ly_ctx_get_module_by_ns,
      moduleMatchesTopName, isContentMatch, strws, trimWs, modPfx, nsBase, cIsSpace,
      s1Ctx, s1Filter, s1Interface, s1Name, XmlElem.children, XmlElem.ns, XmlElem.name,
      XmlElem.attrs, XmlElem.content]

/-- Witness for C2 at the S1 inner step: processing `<name>eth0</name>`
under `/ietf-interfaces:interfaces/interface` emits the selection XPath,
extends the accumulator with the predicate, and drops the child from the
remaining children. -/
theorem content_match_compile_C2_witness :
    contentLoop s1Ctx none [s1Name] "/ietf-interfaces:interfaces/interface"
        "urn:ietf-interfaces" =
      (["/ietf-interfaces:interfaces/interface[name='eth0']/name"],
       some ("/ietf-interfaces:interfaces/interface[name='eth0']", "urn:ietf-interfaces"))
  ∧ s1Name ∉ ([s1Name].filter (fun x => !isContentMatch x)) := by
  have h := content_match_compile_C2.1 s1Ctx none s1Name []
    "/ietf-interfaces:interfaces/interface" "urn:ietf-interfaces"
    "/ietf-interfaces:interfaces/interface[name='eth0']" "urn:ietf-interfaces"
    "/ietf-interfaces:interfaces/interface[name='eth0']/name" "urn:ietf-interfaces"
    (by decide) (by decide) (by decide)
  exact ⟨by rw [h.2.1]; rfl, h.2.2⟩

/-- Witness for C4: projecting a key leaf (id 10) out of a two-key list
instance (keys 10, 11) yields a key-complete tree. -/
theorem projector_key_completeness_C4_witness :
    hasAllKeys
      (opget_build_tree_one (.node ⟨10, 0, false, []⟩ [])
        [.node ⟨1, 0, true, [10, 11]⟩
          [.node ⟨10, 0, false, []⟩ [], .node ⟨11, 1, false, []⟩ []]]) = true :=
  (projector_key_completeness_C4 (.node ⟨10, 0, false, []⟩ [])
    [.node ⟨1, 0, true, [10, 11]⟩
      [.node ⟨10, 0, false, []⟩ [], .node ⟨11, 1, false, []⟩ []]]
    rfl (by intro a ha hl; simp at ha; rw [ha]; decide)).1

end Netopeer2
